import Mathlib

/-!
Shallow embedding of the outbound delivery engine of vSMTP
(`vsmtp-delivery` and `vsmtp-server/src/delivery`), together with
theorems settling the specification claims about it.

Machine integers of the source are modelled as `Nat`/`Int` (no arithmetic
in the delivered code paths overflows in practice; the one `checked_add`
on timestamps panics on overflow in the source and is total on `Int`
here).  Fallible code returns `Except`/`Option`.  Network sends are
modelled by an oracle `send : SenderParameters → Except String Unit`
standing for `Sender::send`'s success or failure.
-/

namespace VSmtp

/-- `TransferErrorsVariant` of `vsmtp-common`: the delivery error taxonomy,
reconstructed from its constructor uses in
`vsmtp-delivery/src/transport/deliver.rs` and the error taxonomy of the
specification (§7). -/
inductive TransferErrorsVariant where
  | dnsRecord (error : String)
  | hasNullMX (domain : String)
  | tlsNoCertificate
  | smtp (error : String)
  | deliveryError (targets : List String)
  | localDeliveryError (error : String)
  deriving DecidableEq

/-- Modelled from the spec: `TransferErrorsVariant::is_permanent` lives in
`vsmtp-common/src/transfer.rs`, which is not part of the excerpt; §7 of the
spec classifies `HasNullMX` and `TlsNoCertificate` as permanent and
`DnsRecordError`, `SmtpError`, `DeliveryExhausted` and `LocalDeliveryError`
as transient. -/
def TransferErrorsVariant.is_permanent : TransferErrorsVariant → Bool
  | .hasNullMX _ => true
  | .tlsNoCertificate => true
  | _ => false

/-- One accumulated delivery error of a held-back recipient: a timestamp
(seconds, as an `Int` standing for `time::OffsetDateTime`) and the error. -/
structure ErrorRecord where
  timestamp : Int
  variant : TransferErrorsVariant
  deriving DecidableEq

/-- Modelled from the spec: `EmailTransferStatus` lives in
`vsmtp-common/src/transfer.rs`, not part of the excerpt; §3 of the spec
gives `Waiting → Sent | HeldBack{errors: ordered sequence of
(timestamp, error)} | Failed{error}`. -/
inductive EmailTransferStatus where
  | waiting
  | sent
  | heldBack (errors : List ErrorRecord)
  | failed (error : TransferErrorsVariant)
  deriving DecidableEq

/-- Modelled from the spec: `EmailTransferStatus::held_back` (used at
`deliver.rs:101`) is in `vsmtp-common`, not part of the excerpt; per §3
"`HeldBack` accumulates; each retry attempt that fails transiently appends
a new error record rather than replacing the list". -/
def EmailTransferStatus.held_back (now : Int) (e : TransferErrorsVariant) :
    EmailTransferStatus → EmailTransferStatus
  | .heldBack errors => .heldBack (errors ++ [⟨now, e⟩])
  | _ => .heldBack [⟨now, e⟩]

/-- Target of an explicit forward (`vsmtp_common::transfer::ForwardTarget`). -/
inductive ForwardTarget where
  | domain (d : String)
  | ip (addr : String)
  | socket (s : String)
  deriving DecidableEq

/-- Per-recipient transfer method (`vsmtp_common::transfer::Transfer`). -/
inductive Transfer where
  | forward (target : ForwardTarget)
  | deliver
  | mbox
  | maildir
  | none
  deriving DecidableEq

/-- An email address, split as the source's `Address` exposes it
(`local_part()` and `domain()`). -/
structure Address where
  local_part : String
  domain : String
  deriving DecidableEq

/-- A recipient (`vsmtp_common::rcpt::Rcpt`). -/
structure Rcpt where
  address : Address
  transfer_method : Transfer
  email_status : EmailTransferStatus
  deriving DecidableEq

/-- An MX record (`trust_dns_resolver::proto::rr::rdata::MX`):
a preference and an exchange host name. -/
structure MX where
  preference : Nat
  exchange : String
  deriving DecidableEq

/-- A certificate, as its DER byte content (`rustls::Certificate`). -/
abbrev Certificate : Type := List Nat

/-- `SenderParameters` of `vsmtp-delivery/src/sender.rs`: the pooling key.
`pool_idle_timeout` is in seconds. -/
structure SenderParameters where
  relay_target : String
  server_name : String
  hello_name : String
  pool_idle_timeout : Nat
  pool_max_size : Nat
  pool_min_idle : Nat
  port : Nat
  certificate : List Certificate
  deriving DecidableEq

/-- `vsmtp_common::SMTP_PORT`. -/
def SMTP_PORT : Nat := 25

end VSmtp

namespace VSmtp

/-- The comparison `sort_by_key(MX::preference)` sorts by. -/
def MX.prefLE (a b : MX) : Bool :=
  decide (a.preference ≤ b.preference)

/-- `records_by_priority.sort_by_key(MX::preference)` in `get_mx_records`
(`deliver.rs:61`).  Rust's `sort_by_key` is a stable sort keyed on the
preference only; modelled by the (equally stable) `List.mergeSort` on the
same key. -/
def sortByPreference (l : List MX) : List MX :=
  l.mergeSort MX.prefLE

/-- `Deliver::get_mx_records` (`deliver.rs:48-63`): fetch MX records for a
domain and order them by preference.  The DNS resolver is modelled by its
result (`Except` of an error message or the unordered record list). -/
def get_mx_records (mx_lookup : Except String (List MX)) :
    Except String (List MX) :=
  mx_lookup.map sortByPreference

/-- The `SenderParameters` built in the empty-MX-record fallback branch of
`deliver_one_domain_inner` (`deliver.rs:137-147`): the queried domain is
both the relay target and the presented server name. -/
def directParameters (hello_name domain : String) (cert : List Certificate) :
    SenderParameters :=
  { relay_target := domain
    server_name := domain
    hello_name := hello_name
    pool_idle_timeout := 60
    pool_max_size := 3
    pool_min_idle := 1
    port := SMTP_PORT
    certificate := cert }

/-- The `SenderParameters` built for one MX candidate in the candidate loop
of `deliver_one_domain_inner` (`deliver.rs:182-192`). -/
def mxParameters (hello_name domain mx : String) (cert : List Certificate) :
    SenderParameters :=
  { relay_target := mx
    server_name := domain
    hello_name := hello_name
    pool_idle_timeout := 60
    pool_max_size := 3
    pool_min_idle := 1
    port := SMTP_PORT
    certificate := cert }

/-- The MX candidate loop of `deliver_one_domain_inner`
(`deliver.rs:163-215`): iterate the candidates in order; a `"."` candidate
returns the null-MX permanent error; otherwise look up the certificate
(absence returns `TlsNoCertificate`), attempt a send, stop at the first
success, and after exhausting all candidates fail with `DeliveryError`
listing the full candidate set `allMxs`.  Returns the list of attempted
sends (their parameters, in order) together with the result. -/
def tryMxCandidates (send : SenderParameters → Except String Unit)
    (hello_name domain : String) (cert : Option (List Certificate))
    (allMxs : List String) :
    List String → List SenderParameters × Except TransferErrorsVariant Unit
  | [] => ([], .error (.deliveryError allMxs))
  | mx :: rest =>
    if mx = "." then
      ([], .error (.hasNullMX domain))
    else
      match cert with
      | Option.none => ([], .error .tlsNoCertificate)
      | Option.some c =>
        let p := mxParameters hello_name domain mx c
        match send p with
        | .ok _ => ([p], .ok ())
        | .error _ =>
          let r := tryMxCandidates send hello_name domain cert allMxs rest
          (p :: r.1, r.2)

/-- `Deliver::deliver_one_domain_inner` (`deliver.rs:110-216`), returning
the sequence of send attempts made and the delivery result.  The network
is modelled by the oracle `send`; `hello_name` is
`ctx.connect.server_name`; `cert` is `get_cert_for_server`'s result
(modelled from the spec §6: configuration supplies trust certificates per
server identity, possibly none). -/
def deliver_one_domain_inner (send : SenderParameters → Except String Unit)
    (hello_name : String) (cert : Option (List Certificate)) (domain : String)
    (mx_lookup : Except String (List MX)) :
    List SenderParameters × Except TransferErrorsVariant Unit :=
  match get_mx_records mx_lookup with
  | .error e => ([], .error (.dnsRecord e))
  | .ok records =>
    if records.isEmpty then
      match cert with
      | Option.none => ([], .error .tlsNoCertificate)
      | Option.some c =>
        let p := directParameters hello_name domain c
        match send p with
        | .ok _ => ([p], .ok ())
        | .error e => ([p], .error (.smtp e))
    else
      let mxs := records.map MX.exchange
      tryMxCandidates send hello_name domain cert mxs mxs

/-- `Deliver::deliver_one_domain` (`deliver.rs:65-108`): run the inner
delivery for one domain group and map the terminal outcome onto every
recipient of the group (success → `Sent`; permanent error → `Failed`;
other error → `held_back`, stamped `now`). -/
def deliver_one_domain (send : SenderParameters → Except String Unit)
    (hello_name : String) (cert : Option (List Certificate)) (now : Int)
    (domain : String) (mx_lookup : Except String (List MX))
    (rcpt : List Rcpt) : List SenderParameters × List Rcpt :=
  let r := deliver_one_domain_inner send hello_name cert domain mx_lookup
  match r.2 with
  | .ok _ => (r.1, rcpt.map fun i => { i with email_status := .sent })
  | .error error =>
    if error.is_permanent then
      (r.1, rcpt.map fun i => { i with email_status := .failed error })
    else
      (r.1, rcpt.map fun i =>
        { i with email_status := i.email_status.held_back now error })

/-- One step of the domain grouping in `<Deliver as Transport>::deliver`
(`deliver.rs:230-236`): push the recipient onto its domain's group,
creating the group if absent. -/
def addToDomainGroup (r : Rcpt) :
    List (String × List Rcpt) → List (String × List Rcpt)
  | [] => [(r.address.domain, [r])]
  | (d, rs) :: rest =>
    if d = r.address.domain then (d, rs ++ [r]) :: rest
    else (d, rs) :: addToDomainGroup r rest

/-- The `rcpt_by_domain` map of `<Deliver as Transport>::deliver`
(`deliver.rs:230-236`).  The source uses a `HashMap` whose iteration order
is unspecified; the model fixes first-occurrence order of domains, one
admissible order. -/
def rcpt_by_domain (recipients : List Rcpt) : List (String × List Rcpt) :=
  recipients.foldl (fun m r => addToDomainGroup r m) []

/-- `<Deliver as Transport>::deliver` (`deliver.rs:222-247`): group the
recipients by domain, deliver each domain group, and flatten the updated
groups back into one recipient list.  `mx_lookup` gives each domain's
resolver result. -/
def Deliver.deliver (send : SenderParameters → Except String Unit)
    (hello_name : String) (cert : Option (List Certificate)) (now : Int)
    (mx_lookup : String → Except String (List MX)) (recipients : List Rcpt) :
    List Rcpt :=
  ((rcpt_by_domain recipients).map fun g =>
    (deliver_one_domain send hello_name cert now g.1 (mx_lookup g.1) g.2).2).flatten

end VSmtp

namespace VSmtp

/-- Named persistent queues (`vsmtp_common::queue::Queue`,
`vqueue::QueueID`). -/
inductive Queue where
  | working
  | deliver
  | deferred
  | dead
  deriving DecidableEq

/-- Does the recipient's status match `EmailTransferStatus::HeldBack(..)`? -/
def Rcpt.isHeldBack (r : Rcpt) : Bool :=
  match r.email_status with
  | .heldBack _ => true
  | _ => false

/-- Does the recipient's status match `EmailTransferStatus::Failed(..)`? -/
def Rcpt.isFailed (r : Rcpt) : Bool :=
  match r.email_status with
  | .failed _ => true
  | _ => false

/-- Is the recipient's transfer method `Transfer::None`? -/
def Rcpt.isNoneTransfer (r : Rcpt) : Bool :=
  match r.transfer_method with
  | Transfer.none => true
  | _ => false

/-- Is the recipient's status `EmailTransferStatus::Sent`? -/
def Rcpt.isSent (r : Rcpt) : Bool :=
  match r.email_status with
  | .sent => true
  | _ => false

/-- `move_to_queue` (`vsmtp-server/src/delivery/mod.rs:160-182`): write a
copy of the message into the deferred queue when any recipient is held
back, and — an independent second check — into the dead queue when any
recipient failed or has transfer method `None`.  Modelled as the list of
queue writes performed, in source order. -/
def move_to_queue (rcpt : List Rcpt) : List Queue :=
  (if rcpt.any Rcpt.isHeldBack then [Queue.deferred] else []) ++
  (if rcpt.any fun r => r.isFailed || r.isNoneTransfer then [Queue.dead]
   else [])

/-- One step of the transfer-method triage: push the recipient onto its
method's group, creating the group if absent. -/
def addToMethodGroup (r : Rcpt) :
    List (Transfer × List Rcpt) → List (Transfer × List Rcpt)
  | [] => [(r.transfer_method, [r])]
  | (m, rs) :: rest =>
    if m = r.transfer_method then (m, rs ++ [r]) :: rest
    else (m, rs) :: addToMethodGroup r rest

/-- Modelled from the spec: `vsmtp_common::rcpt::filter_by_transfer_method`
(used at `mod.rs:112`) is not part of the excerpt.  Per §4.3 recipients are
triaged into one group per distinct transfer method, and per §8 recipients
already `Sent` "are excluded from any further transport dispatch". -/
def filter_by_transfer_method (rcpt : List Rcpt) :
    List (Transfer × List Rcpt) :=
  (rcpt.filter fun r => !r.isSent).foldl (fun m r => addToMethodGroup r m) []

/-- The recipients `send_email` (`mod.rs:103-156`) hands to a transport:
every member of a non-`None` group of the triage (`None` groups are
skipped by the `continue` at `mod.rs:138`). -/
def send_email_dispatched (recipients : List Rcpt) : List Rcpt :=
  (((filter_by_transfer_method recipients).filter
    fun g => !(match g.1 with | Transfer.none => true | _ => false)).map
      Prod.snd).flatten

/-- `send_email` (`mod.rs:103-156`): triage recipients by transfer method,
dispatch each non-`None` group to its transport (modelled by the oracle
`transport`, which returns the group's updated recipients), flatten the
triage back and discard recipients now tagged `Sent`. -/
def send_email (transport : Transfer → List Rcpt → List Rcpt)
    (recipients : List Rcpt) : List Rcpt :=
  let triage := filter_by_transfer_method recipients
  let delivered := triage.map fun g =>
    match g.1 with
    | Transfer.none => g
    | _ => (g.1, transport g.1 g.2)
  ((delivered.map Prod.snd).flatten).filter fun r => !r.isSent

/-- The per-recipient contribution to `last_error` in
`handle_one_in_deferred_queue` (`deferred.rs:90-92`): the timestamp of the
most recent accumulated error of a held-back recipient, none otherwise. -/
def lastHeldBackErrorTimestamp (r : Rcpt) : Option Int :=
  match r.email_status with
  | .heldBack errors => errors.getLast?.map ErrorRecord.timestamp
  | _ => Option.none

/-- `last_error` of `handle_one_in_deferred_queue` (`deferred.rs:86-94`):
the minimum, across held-back recipients, of each recipient's most recent
error timestamp. -/
def last_error (rcpt : List Rcpt) : Option Int :=
  (rcpt.filterMap lastHeldBackErrorTimestamp).min?

/-- `held_back_count` of `handle_one_in_deferred_queue`
(`deferred.rs:96-101`): how many recipients are currently held back. -/
def held_back_count (rcpt : List Rcpt) : Int :=
  ((rcpt.countP Rcpt.isHeldBack : Nat) : Int)

/-- The readiness gate of `handle_one_in_deferred_queue`
(`deferred.rs:103-115`): the message is skipped iff a `last_error` exists
and `last_error + held_back_count × 5 minutes > flushing_at` (times in
seconds; the source's `checked_add` panics on overflow, total here). -/
def deferredIsReady (rcpt : List Rcpt) (flushing_at : Int) : Bool :=
  match last_error rcpt with
  | Option.some t => !decide (t + held_back_count rcpt * 300 > flushing_at)
  | Option.none => true

/-- `vsmtp_delivery::SenderOutcome` (matched at `deferred.rs:119-139`). -/
inductive SenderOutcome where
  | moveToDead
  | moveToDeferred
  | removeFromDisk
  deriving DecidableEq

/-- The queue-placement decision derived from the final recipient statuses
(spec §3): any `Failed` or `None`-transfer recipient → dead queue, else
any `HeldBack` → deferred queue, else removal from disk. -/
def senderOutcomeOf (rcpt : List Rcpt) : SenderOutcome :=
  if rcpt.any fun r => r.isFailed || r.isNoneTransfer then .moveToDead
  else if rcpt.any Rcpt.isHeldBack then .moveToDeferred
  else .removeFromDisk

/-- Modelled from the spec: `vsmtp_delivery::split_and_sort_and_send`
(called at `deferred.rs:119`) lives in `vsmtp-delivery/src/lib.rs`, not
part of the excerpt.  Per §6 it is the delivery entry point returning the
updated recipient list; per §8 recipients already `Sent` are excluded from
any further transport dispatch and per §4.3 `None`-transfer recipients are
excluded from transport entirely; per §3 the outcome is derived from the
updated statuses.  `attempt` models one transport outcome per dispatched
recipient; returns (dispatched recipients, updated recipients, outcome). -/
def split_and_sort_and_send (attempt : Rcpt → EmailTransferStatus)
    (rcpt : List Rcpt) : List Rcpt × List Rcpt × SenderOutcome :=
  let dispatched := rcpt.filter fun r => !r.isSent && !r.isNoneTransfer
  let updated := rcpt.map fun r =>
    if !r.isSent && !r.isNoneTransfer then { r with email_status := attempt r }
    else r
  (dispatched, updated, senderOutcomeOf updated)

/-- Queue operations the deferred handler can issue
(`deferred.rs:119-139`). -/
inductive QueueOp where
  | moveDeferredToDead
  | writeCtxDeferred
  | removeBothDeferred
  deriving DecidableEq

/-- `handle_one_in_deferred_queue` (`deferred.rs:72-140`), modelled on the
recipient list of the queued context: a not-ready message is skipped
before the message body is even read (no queue operation, no status
change); otherwise delivery is re-run through `split_and_sort_and_send`
and its outcome mapped onto one queue operation.  Returns the (possibly
updated) recipient list and the queue operation issued, if any. -/
def handle_one_in_deferred_queue (attempt : Rcpt → EmailTransferStatus)
    (rcpt : List Rcpt) (flushing_at : Int) : List Rcpt × Option QueueOp :=
  if deferredIsReady rcpt flushing_at then
    let r := split_and_sort_and_send attempt rcpt
    (r.2.1,
      Option.some
        (match r.2.2 with
          | .moveToDead => QueueOp.moveDeferredToDead
          | .moveToDeferred => QueueOp.writeCtxDeferred
          | .removeFromDisk => QueueOp.removeBothDeferred))
  else (rcpt, Option.none)

/-- The pool-map state of `Sender` (`sender.rs:49-51`), with an
instrumentation counter on the build path: `senders` associates each
parameter key with its pooled-transport handle (an abstract identifier),
`next_handle` supplies fresh handles, and `builds` counts every run of
`Sender::build_sender`. -/
structure SenderState where
  senders : List (SenderParameters × Nat)
  next_handle : Nat
  builds : Nat
  deriving DecidableEq

/-- Key lookup in the pool map (`contains_key` / `get` of
`sender.rs:71-93`). -/
def SenderState.get? (st : SenderState) (params : SenderParameters) :
    Option Nat :=
  (st.senders.find? fun kv => decide (kv.1 = params)).map Prod.snd

/-- `Sender::send` (`sender.rs:62-101`) up to the final `send_raw`: when
the key is absent, run `build_sender` — modelled by the oracle `build_ok`;
a build failure is returned at once (`?` at `sender.rs:79`) with nothing
inserted — then insert the fresh handle under the key; in either case
return the handle stored under the key.  Returns the new state and the
handle or the build error. -/
def Sender.send (build_ok : SenderParameters → Bool) (st : SenderState)
    (params : SenderParameters) : SenderState × Except Unit Nat :=
  match st.get? params with
  | Option.some h => (st, .ok h)
  | Option.none =>
    if build_ok params then
      ({ senders := st.senders ++ [(params, st.next_handle)]
         next_handle := st.next_handle + 1
         builds := st.builds + 1 }, .ok st.next_handle)
    else
      ({ st with builds := st.builds + 1 }, .error ())

end VSmtp

namespace VSmtp

theorem prefLE_trans (a b c : MX) :
    MX.prefLE a b → MX.prefLE b c → MX.prefLE a c := by
  simp only [MX.prefLE, decide_eq_true_eq]
  omega

theorem prefLE_total (a b : MX) : MX.prefLE a b || MX.prefLE b a := by
  simp only [MX.prefLE, Bool.or_eq_true, decide_eq_true_eq]
  omega

/-- The sort in `get_mx_records` permutes the resolver's records. -/
theorem sortByPreference_perm (l : List MX) : List.Perm (sortByPreference l) l :=
  List.mergeSort_perm l _

/-- The sort in `get_mx_records` is ascending in preference. -/
theorem sortByPreference_sorted (l : List MX) :
    (sortByPreference l).Pairwise fun a b => a.preference ≤ b.preference := by
  have h := List.sorted_mergeSort prefLE_trans prefLE_total l
  exact h.imp fun hab => by simpa [MX.prefLE] using hab

/-- Stability of the sort in `get_mx_records`: records of one given
preference keep their resolver-returned relative order. -/
theorem sortByPreference_stable (l : List MX) (p : Nat) :
    (sortByPreference l).filter (fun r => decide (r.preference = p)) =
      l.filter (fun r => decide (r.preference = p)) := by
  have hsub : List.Sublist (l.filter (fun r => decide (r.preference = p))) l :=
    List.filter_sublist l
  have hpair : (l.filter (fun r => decide (r.preference = p))).Pairwise
      fun a b => MX.prefLE a b := by
    apply List.pairwise_of_forall_mem_list
    intro a ha b hb
    have ha' := (List.mem_filter.mp ha).2
    have hb' := (List.mem_filter.mp hb).2
    simp only [decide_eq_true_eq] at ha' hb'
    simp only [MX.prefLE, decide_eq_true_eq]
    omega
  have hsl : List.Sublist (l.filter (fun r => decide (r.preference = p)))
      (sortByPreference l) :=
    List.sublist_mergeSort prefLE_trans prefLE_total hpair hsub
  have hself : (l.filter (fun r => decide (r.preference = p))).filter
      (fun r => decide (r.preference = p)) =
      l.filter (fun r => decide (r.preference = p)) :=
    List.filter_eq_self.mpr fun a ha => (List.mem_filter.mp ha).2
  have hsl2 := hsl.filter (fun r => decide (r.preference = p))
  rw [hself] at hsl2
  have hlen : ((sortByPreference l).filter
      (fun r => decide (r.preference = p))).length =
      (l.filter (fun r => decide (r.preference = p))).length :=
    ((sortByPreference_perm l).filter _).length_eq
  exact (hsl2.eq_of_length hlen.symm).symm

/-- Reaching the null-MX sentinel: when every candidate before the `"."`
entry is a non-null host whose send fails (certificate present), the
candidate loop attempts exactly those hosts and then fails permanently
with `HasNullMX`. -/
theorem tryMxCandidates_reaches_null (send : SenderParameters → Except String Unit)
    (hello domain : String) (c : List Certificate) (allMxs pre post : List String)
    (hpre : ∀ mx ∈ pre, mx ≠ "." ∧
      ∃ s, send (mxParameters hello domain mx c) = .error s) :
    tryMxCandidates send hello domain (Option.some c) allMxs (pre ++ "." :: post) =
      (pre.map fun mx => mxParameters hello domain mx c,
        .error (.hasNullMX domain)) := by
  induction pre with
  | nil => simp [tryMxCandidates]
  | cons a as ih =>
    obtain ⟨ha, s, hs⟩ := hpre a (by simp)
    have ih' := ih fun mx hm => hpre mx (by simp [hm])
    simp [tryMxCandidates, ha, hs, ih']

/-- First success stops the candidate loop: with the certificate present,
every candidate before `mx0` a non-null host whose send fails, and `mx0` a
non-null host whose send succeeds, the loop attempts exactly the failing
hosts then `mx0`, and succeeds without probing beyond `mx0`. -/
theorem tryMxCandidates_first_success (send : SenderParameters → Except String Unit)
    (hello domain : String) (c : List Certificate) (allMxs pre post : List String)
    (mx0 : String)
    (hpre : ∀ mx ∈ pre, mx ≠ "." ∧
      ∃ s, send (mxParameters hello domain mx c) = .error s)
    (h0 : mx0 ≠ ".") (hok : send (mxParameters hello domain mx0 c) = .ok ()) :
    tryMxCandidates send hello domain (Option.some c) allMxs (pre ++ mx0 :: post) =
      ((pre ++ [mx0]).map fun mx => mxParameters hello domain mx c, .ok ()) := by
  induction pre with
  | nil => simp [tryMxCandidates, h0, hok]
  | cons a as ih =>
    obtain ⟨ha, s, hs⟩ := hpre a (by simp)
    have ih' := ih fun mx hm => hpre mx (by simp [hm])
    simp [tryMxCandidates, ha, hs, ih']

/-- Exhaustion: with the certificate present and every candidate a
non-null host whose send fails, the loop attempts every host in order and
fails with `DeliveryError` carrying the full candidate set. -/
theorem tryMxCandidates_all_fail (send : SenderParameters → Except String Unit)
    (hello domain : String) (c : List Certificate) (allMxs mxs : List String)
    (h : ∀ mx ∈ mxs, mx ≠ "." ∧
      ∃ s, send (mxParameters hello domain mx c) = .error s) :
    tryMxCandidates send hello domain (Option.some c) allMxs mxs =
      (mxs.map fun mx => mxParameters hello domain mx c,
        .error (.deliveryError allMxs)) := by
  induction mxs with
  | nil => simp [tryMxCandidates]
  | cons a as ih =>
    obtain ⟨ha, s, hs⟩ := h a (by simp)
    have ih' := ih fun mx hm => h mx (by simp [hm])
    simp [tryMxCandidates, ha, hs, ih']

end VSmtp

namespace VSmtp

/-- The recipient fields `deliver` must not alter: everything except
`email_status`. -/
def Rcpt.frame (r : Rcpt) : Address × Transfer :=
  (r.address, r.transfer_method)

/-- Adding one recipient to the domain grouping adds exactly that
recipient to the flattened contents. -/
theorem flatten_addToDomainGroup (r : Rcpt) (g : List (String × List Rcpt)) :
    List.Perm (((addToDomainGroup r g).map Prod.snd).flatten)
      (((g.map Prod.snd).flatten) ++ [r]) := by
  induction g with
  | nil => simp [addToDomainGroup]
  | cons hd tl ih =>
    obtain ⟨d, rs⟩ := hd
    by_cases h : d = r.address.domain
    · simp only [addToDomainGroup, List.map_cons, List.flatten_cons]
      rw [if_pos h]
      simp only [List.map_cons, List.flatten_cons]
      have h1 : List.Perm ((rs ++ [r]) ++ ((tl.map Prod.snd).flatten))
          (rs ++ (((tl.map Prod.snd).flatten) ++ [r])) := by
        rw [List.append_assoc]
        exact List.Perm.append_left rs List.perm_append_comm
      have h2 : rs ++ (((tl.map Prod.snd).flatten) ++ [r])
          = (rs ++ ((tl.map Prod.snd).flatten)) ++ [r] :=
        (List.append_assoc rs _ _).symm
      rw [h2] at h1
      exact h1
    · simp only [addToDomainGroup, List.map_cons, List.flatten_cons]
      rw [if_neg h]
      simp only [List.map_cons, List.flatten_cons]
      have h1 := ih.append_left rs
      have h2 : rs ++ (((tl.map Prod.snd).flatten) ++ [r])
          = (rs ++ ((tl.map Prod.snd).flatten)) ++ [r] :=
        (List.append_assoc rs _ _).symm
      rw [h2] at h1
      exact h1

/-- The domain grouping of `<Deliver as Transport>::deliver` neither drops
nor duplicates a recipient: flattening the groups permutes the input. -/
theorem rcpt_by_domain_flatten_perm (recipients : List Rcpt) :
    List.Perm (((rcpt_by_domain recipients).map Prod.snd).flatten) recipients := by
  suffices h : ∀ (g : List (String × List Rcpt)) (l : List Rcpt),
      List.Perm (((l.foldl (fun m r => addToDomainGroup r m) g).map Prod.snd).flatten)
        (((g.map Prod.snd).flatten) ++ l) by
    simpa [rcpt_by_domain] using h [] recipients
  intro g l
  induction l generalizing g with
  | nil => simp
  | cons a as ih =>
    simp only [List.foldl_cons]
    have h1 := ih (addToDomainGroup a g)
    have h2 := (flatten_addToDomainGroup a g).append_right as
    have h3 := h1.trans h2
    have e : ((((g.map Prod.snd).flatten) ++ [a])) ++ as
        = ((g.map Prod.snd).flatten) ++ (a :: as) := by simp
    rw [e] at h3
    exact h3

/-- Whatever the outcome, `deliver_one_domain` only updates recipient
statuses: addresses and transfer methods pass through unchanged. -/
theorem deliver_one_domain_frame (send : SenderParameters → Except String Unit)
    (hello_name : String) (cert : Option (List Certificate)) (now : Int)
    (domain : String) (mx_lookup : Except String (List MX)) (rcpt : List Rcpt) :
    ((deliver_one_domain send hello_name cert now domain mx_lookup rcpt).2).map
        Rcpt.frame = rcpt.map Rcpt.frame := by
  cases hres : (deliver_one_domain_inner send hello_name cert domain mx_lookup).2 with
  | ok u => simp [deliver_one_domain, hres, Rcpt.frame]
  | error e =>
    by_cases hp : e.is_permanent = true <;>
      simp [deliver_one_domain, hres, hp, Rcpt.frame]

end VSmtp

namespace VSmtp

/-- The two recipients of C1's counterexample: one held back, one failed. -/
def c1HeldBackRcpt : Rcpt :=
  { address := ⟨"a", "x.org"⟩, transfer_method := Transfer.deliver,
    email_status := .heldBack [⟨0, .smtp "451 mailbox busy"⟩] }

def c1FailedRcpt : Rcpt :=
  { address := ⟨"b", "y.org"⟩, transfer_method := Transfer.deliver,
    email_status := .failed (.hasNullMX "y.org") }

/-- C1 counterexample: a message with one held-back and one failed
recipient is written by `move_to_queue` to BOTH the deferred and the dead
queue — the two checks are independent, so placement is not exclusive and
Dead does not take priority over Deferred. -/
theorem C1_counterexample :
    move_to_queue [c1HeldBackRcpt, c1FailedRcpt] = [Queue.deferred, Queue.dead] ∧
    Queue.deferred ∈ move_to_queue [c1HeldBackRcpt, c1FailedRcpt] ∧
    Queue.dead ∈ move_to_queue [c1HeldBackRcpt, c1FailedRcpt] := by
  decide

/-- C1 (amended): after one delivery pass `move_to_queue` derives
placement from recipient statuses by two INDEPENDENT checks: the message
is written to the Deferred queue iff some recipient is `HeldBack`, and
written to the Dead queue iff some recipient is `Failed` or has transfer
method `None` — a message with both kinds of recipients is written to both
queues; a message whose recipients are all `Sent` (and none
`None`-transfer) is written to neither. -/
theorem C1_queue_placement (rcpt : List Rcpt) :
    (Queue.deferred ∈ move_to_queue rcpt ↔ ∃ r ∈ rcpt, r.isHeldBack = true) ∧
    (Queue.dead ∈ move_to_queue rcpt ↔
      ∃ r ∈ rcpt, r.isFailed = true ∨ r.isNoneTransfer = true) ∧
    ((∀ r ∈ rcpt, r.email_status = EmailTransferStatus.sent ∧
        r.isNoneTransfer = false) →
      move_to_queue rcpt = []) := by
  refine ⟨?_, ?_, ?_⟩
  · by_cases h1 : rcpt.any Rcpt.isHeldBack <;>
      by_cases h2 : rcpt.any fun r => r.isFailed || r.isNoneTransfer <;>
      simp_all [move_to_queue, List.any_eq_true]
  · by_cases h1 : rcpt.any Rcpt.isHeldBack <;>
      by_cases h2 : rcpt.any fun r => r.isFailed || r.isNoneTransfer <;>
      simp_all [move_to_queue, List.any_eq_true]
  · intro h
    have h1 : rcpt.any Rcpt.isHeldBack = false := by
      rw [List.any_eq_false]
      intro r hr
      simp [Rcpt.isHeldBack, (h r hr).1]
    have h2 : (rcpt.any fun r => r.isFailed || r.isNoneTransfer) = false := by
      rw [List.any_eq_false]
      intro r hr
      simp [Rcpt.isFailed, (h r hr).1, (h r hr).2]
    simp [move_to_queue, h1, h2]

/-- C1 amended-claim witness. -/
theorem C1_queue_placement_witness :
    move_to_queue
      [{ address := ⟨"c", "z.org"⟩, transfer_method := Transfer.deliver,
         email_status := EmailTransferStatus.sent }] = [] :=
  (C1_queue_placement _).2.2 (by decide)

end VSmtp

namespace VSmtp

/-- The claim's notion of oldest error: the minimum over ALL accumulated
error timestamps of every held-back recipient, stated from the spec's
words for comparison with the code's gate. -/
def specOldestErrorTimestamp (rcpt : List Rcpt) : Option Int :=
  ((rcpt.map fun r =>
    match r.email_status with
    | .heldBack errors => errors.map ErrorRecord.timestamp
    | _ => []).flatten).min?

/-- The claim's readiness rule, stated from the spec's words:
retry-ready iff `oldest_error_timestamp + held_back_count × 5 min ≤ now`
(and unconditionally when there is no error timestamp). -/
def specRetryReady (rcpt : List Rcpt) (now : Int) : Bool :=
  match specOldestErrorTimestamp rcpt with
  | Option.some t => decide (t + held_back_count rcpt * 300 ≤ now)
  | Option.none => true

/-- The recipient of C2's counterexample: held back with an error at time
0 and a later error at time 1000. -/
def c2Rcpt : Rcpt :=
  { address := ⟨"a", "x.org"⟩, transfer_method := Transfer.deliver,
    email_status := .heldBack [⟨0, .smtp "451 busy"⟩, ⟨1000, .smtp "452 full"⟩] }

/-- C2 counterexample: one held-back recipient with errors at times 0 and
1000, swept at time 1000.  The claim's rule (oldest error 0, count 1:
0 + 300 ≤ 1000) says the message is retried, but the handler skips it with
no side effect — the code gates on each recipient's MOST RECENT error
timestamp (here 1000), not the oldest one. -/
theorem C2_counterexample :
    specOldestErrorTimestamp [c2Rcpt] = Option.some 0 ∧
    held_back_count [c2Rcpt] = 1 ∧
    specRetryReady [c2Rcpt] 1000 = true ∧
    deferredIsReady [c2Rcpt] 1000 = false ∧
    handle_one_in_deferred_queue (fun _ => EmailTransferStatus.sent) [c2Rcpt] 1000 =
      ([c2Rcpt], Option.none) := by
  decide

/-- C2 (amended): the deferred handler gates retry on `T`, the minimum
across held-back recipients of each recipient's most recent error
timestamp (`last_error`): it re-attempts delivery iff
`T + held_back_count × 5 min ≤ now`; a not-ready message is skipped with
no queue operation and unchanged recipients; with `held_back_count = 2`
the message is skipped strictly before `T + 10 min` and is eligible at or
after that instant. -/
theorem C2_deferred_retry_readiness (attempt : Rcpt → EmailTransferStatus)
    (rcpt : List Rcpt) (now t : Int) (h : last_error rcpt = Option.some t) :
    (deferredIsReady rcpt now = true ↔ t + held_back_count rcpt * 300 ≤ now) ∧
    (deferredIsReady rcpt now = false →
      handle_one_in_deferred_queue attempt rcpt now = (rcpt, Option.none)) ∧
    (held_back_count rcpt = 2 →
      (now < t + 600 →
        handle_one_in_deferred_queue attempt rcpt now = (rcpt, Option.none)) ∧
      (t + 600 ≤ now → deferredIsReady rcpt now = true)) := by
  have hready : deferredIsReady rcpt now = true ↔
      t + held_back_count rcpt * 300 ≤ now := by
    simp only [deferredIsReady, h, Bool.not_eq_true', decide_eq_false_iff_not, not_lt]
  refine ⟨hready, ?_, ?_⟩
  · intro hnot
    simp [handle_one_in_deferred_queue, hnot]
  · intro h2
    constructor
    · intro hlt
      have hcond : ¬ (t + held_back_count rcpt * 300 ≤ now) := by
        rw [h2]
        omega
      have hf : deferredIsReady rcpt now = false := by
        cases hb : deferredIsReady rcpt now
        · rfl
        · exact absurd (hready.mp hb) hcond
      simp [handle_one_in_deferred_queue, hf]
    · intro hge
      apply hready.mpr
      rw [h2]
      omega

/-- C2 amended-claim witness: two held-back recipients whose most recent
error timestamps are 0 and 50 (`T = 0`): at sweep time 599 the message is
skipped unchanged, at sweep time 600 it is ready. -/
theorem C2_deferred_retry_readiness_witness :
    handle_one_in_deferred_queue (fun _ => EmailTransferStatus.sent)
      [{ address := ⟨"a", "x.org"⟩, transfer_method := Transfer.deliver,
         email_status := .heldBack [⟨0, .smtp "451 a"⟩] },
       { address := ⟨"b", "x.org"⟩, transfer_method := Transfer.deliver,
         email_status := .heldBack [⟨50, .smtp "451 b"⟩] }] 599 =
      ([{ address := ⟨"a", "x.org"⟩, transfer_method := Transfer.deliver,
          email_status := .heldBack [⟨0, .smtp "451 a"⟩] },
        { address := ⟨"b", "x.org"⟩, transfer_method := Transfer.deliver,
          email_status := .heldBack [⟨50, .smtp "451 b"⟩] }], Option.none) ∧
    deferredIsReady
      [{ address := ⟨"a", "x.org"⟩, transfer_method := Transfer.deliver,
         email_status := .heldBack [⟨0, .smtp "451 a"⟩] },
       { address := ⟨"b", "x.org"⟩, transfer_method := Transfer.deliver,
         email_status := .heldBack [⟨50, .smtp "451 b"⟩] }] 600 = true :=
  ⟨((C2_deferred_retry_readiness (fun _ => EmailTransferStatus.sent) _ 599 0
      (by decide)).2.2 (by decide)).1 (by decide),
   ((C2_deferred_retry_readiness (fun _ => EmailTransferStatus.sent) _ 600 0
      (by decide)).2.2 (by decide)).2 (by decide)⟩

/-- C10: a deferred message with zero held-back recipients collects no
error timestamp, so the readiness gate passes unconditionally: the handler
re-runs delivery and issues a queue operation instead of skipping. -/
theorem C10_zero_heldback_always_ready (attempt : Rcpt → EmailTransferStatus)
    (rcpt : List Rcpt) (flushing_at : Int)
    (h : held_back_count rcpt = 0) :
    deferredIsReady rcpt flushing_at = true ∧
    (handle_one_in_deferred_queue attempt rcpt flushing_at).2.isSome = true := by
  have hcount : rcpt.countP Rcpt.isHeldBack = 0 := by
    have := h
    simp only [held_back_count, Nat.cast_eq_zero] at this
    exact this
  have hall : ∀ r ∈ rcpt, ¬ Rcpt.isHeldBack r := List.countP_eq_zero.mp hcount
  have hnone : last_error rcpt = Option.none := by
    unfold last_error
    have hmap : rcpt.filterMap lastHeldBackErrorTimestamp = [] := by
      rw [List.filterMap_eq_nil_iff]
      intro r hr
      have hb := hall r hr
      unfold Rcpt.isHeldBack at hb
      unfold lastHeldBackErrorTimestamp
      cases hst : r.email_status <;> simp_all
    rw [hmap]
    rfl
  have hready : deferredIsReady rcpt flushing_at = true := by
    simp [deferredIsReady, hnone]
  refine ⟨hready, ?_⟩
  simp [handle_one_in_deferred_queue, hready]

/-- C10 witness: a message whose sole recipient already failed (so zero
held-back recipients) is processed immediately at sweep time 0. -/
theorem C10_zero_heldback_always_ready_witness :
    deferredIsReady
      [{ address := ⟨"b", "y.org"⟩, transfer_method := Transfer.deliver,
         email_status := .failed (.hasNullMX "y.org") }] 0 = true ∧
    (handle_one_in_deferred_queue (fun _ => EmailTransferStatus.sent)
      [{ address := ⟨"b", "y.org"⟩, transfer_method := Transfer.deliver,
         email_status := .failed (.hasNullMX "y.org") }] 0).2.isSome = true :=
  C10_zero_heldback_always_ready (fun _ => EmailTransferStatus.sent) _ 0 (by decide)

end VSmtp

namespace VSmtp

/-- C3: `deliver_one_domain` maps the single terminal outcome of the inner
delivery uniformly onto every recipient of the domain group: success sets
every status to `Sent`; a permanent error sets every status to `Failed`
carrying that error; any other error turns every status into `HeldBack` by
appending the error, stamped with the current time, to that recipient's
existing error history (creating the history when there is none) rather
than replacing it. -/
theorem C3_uniform_outcome_mapping (send : SenderParameters → Except String Unit)
    (hello_name : String) (cert : Option (List Certificate)) (now : Int)
    (domain : String) (mx_lookup : Except String (List MX)) (rcpt : List Rcpt) :
    ((deliver_one_domain_inner send hello_name cert domain mx_lookup).2 = .ok () →
      (deliver_one_domain send hello_name cert now domain mx_lookup rcpt).2 =
        rcpt.map fun i => { i with email_status := EmailTransferStatus.sent }) ∧
    (∀ e, (deliver_one_domain_inner send hello_name cert domain mx_lookup).2 = .error e →
      e.is_permanent = true →
      (deliver_one_domain send hello_name cert now domain mx_lookup rcpt).2 =
        rcpt.map fun i => { i with email_status := EmailTransferStatus.failed e }) ∧
    (∀ e, (deliver_one_domain_inner send hello_name cert domain mx_lookup).2 = .error e →
      e.is_permanent = false →
      (deliver_one_domain send hello_name cert now domain mx_lookup rcpt).2 =
        rcpt.map fun i =>
          { i with email_status := i.email_status.held_back now e }) ∧
    (∀ (t : Int) (e : TransferErrorsVariant) (errors : List ErrorRecord),
      EmailTransferStatus.held_back t e (.heldBack errors) =
        .heldBack (errors ++ [⟨t, e⟩])) ∧
    (∀ (t : Int) (e : TransferErrorsVariant),
      EmailTransferStatus.held_back t e .waiting = .heldBack [⟨t, e⟩]) := by
  refine ⟨?_, ?_, ?_, fun t e errors => rfl, fun t e => rfl⟩
  · intro hres
    simp [deliver_one_domain, hres]
  · intro e hres hp
    simp [deliver_one_domain, hres, hp]
  · intro e hres hp
    simp [deliver_one_domain, hres, hp]

/-- C3 witness: a transient exhaustion error is appended, with its
timestamp, behind the recipient's existing held-back history. -/
theorem C3_uniform_outcome_mapping_witness :
    (deliver_one_domain (fun _ => Except.error "boom") "srv" (Option.some [[]]) 5
      "x.org" (.ok [⟨10, "mx1"⟩])
      [{ address := ⟨"u", "x.org"⟩, transfer_method := Transfer.deliver,
         email_status := .heldBack [⟨1, .smtp "451 z"⟩] }]).2 =
    [{ address := ⟨"u", "x.org"⟩, transfer_method := Transfer.deliver,
       email_status := .heldBack [⟨1, .smtp "451 z"⟩,
         ⟨5, .deliveryError ["mx1"]⟩] }] := by
  have h := (C3_uniform_outcome_mapping (fun _ => Except.error "boom") "srv"
    (Option.some [[]]) 5 "x.org" (.ok [⟨10, "mx1"⟩])
    [{ address := ⟨"u", "x.org"⟩, transfer_method := Transfer.deliver,
       email_status := .heldBack [⟨1, .smtp "451 z"⟩] }]).2.2.1
    (.deliveryError ["mx1"])
    (by simp [deliver_one_domain_inner, get_mx_records, Except.map, sortByPreference,
      List.mergeSort, tryMxCandidates])
    (by decide)
  simpa [EmailTransferStatus.held_back] using h

end VSmtp

namespace VSmtp

/-- C4 counterexample: the sorted candidate list for `x.org` contains the
null-MX sentinel `"."` (behind host `good` at a lower preference), yet the
send to `good` succeeds, so every recipient is marked `Sent` — a list
merely CONTAINING `"."` does not force a permanent failure. -/
theorem C4_counterexample :
    "." ∈ (sortByPreference [⟨1, "good"⟩, ⟨2, "."⟩]).map MX.exchange ∧
    (deliver_one_domain (fun _ => Except.ok ()) "srv" (Option.some [[]]) 7 "x.org"
      (.ok [⟨1, "good"⟩, ⟨2, "."⟩])
      [{ address := ⟨"w", "x.org"⟩, transfer_method := Transfer.deliver,
         email_status := .waiting }]).2 =
      [{ address := ⟨"w", "x.org"⟩, transfer_method := Transfer.deliver,
         email_status := EmailTransferStatus.sent }] := by
  constructor
  · simp [sortByPreference, List.mergeSort, List.merge, MX.prefLE]
  · simp [deliver_one_domain, deliver_one_domain_inner, get_mx_records,
      sortByPreference, List.mergeSort, List.merge, MX.prefLE, tryMxCandidates,
      Except.map]

/-- C4 (amended): the null-MX sentinel yields the permanent `HasNullMX`
failure — reported with the offending domain and applied to every
recipient of the group as `Failed`, never `HeldBack` — exactly when the
candidate iteration REACHES the `"."` entry, i.e. every candidate sorted
before it is a non-null host whose send fails (certificate present).  In
particular a candidate list headed by `"."` (the RFC 7505 null-MX
configuration) fails permanently for any certificate state.  When a send
to an earlier candidate succeeds, the group is marked `Sent` instead. -/
theorem C4_null_mx_permanent (send : SenderParameters → Except String Unit)
    (hello_name : String) (c : List Certificate) (now : Int) (domain : String)
    (records : List MX) (rcpt : List Rcpt) (pre post : List String)
    (hsort : (sortByPreference records).map MX.exchange = pre ++ "." :: post)
    (hpre : ∀ mx ∈ pre, mx ≠ "." ∧
      ∃ s, send (mxParameters hello_name domain mx c) = .error s) :
    (deliver_one_domain send hello_name (Option.some c) now domain (.ok records)
        rcpt =
      (pre.map fun mx => mxParameters hello_name domain mx c,
       rcpt.map fun i =>
         { i with email_status := .failed (.hasNullMX domain) })) ∧
    (TransferErrorsVariant.hasNullMX domain).is_permanent = true ∧
    (∀ (cert : Option (List Certificate)) (allMxs rest : List String),
      tryMxCandidates send hello_name domain cert allMxs ("." :: rest) =
        ([], .error (.hasNullMX domain))) := by
  have hne : (sortByPreference records).isEmpty = false := by
    cases hs : sortByPreference records with
    | nil => rw [hs] at hsort; simp at hsort
    | cons a l => simp
  have hinner : deliver_one_domain_inner send hello_name (Option.some c) domain
      (.ok records) =
      (pre.map fun mx => mxParameters hello_name domain mx c,
        .error (.hasNullMX domain)) := by
    unfold deliver_one_domain_inner get_mx_records
    simp only [Except.map, hne, Bool.false_eq_true, if_false, hsort]
    exact tryMxCandidates_reaches_null send hello_name domain c _ pre post hpre
  refine ⟨?_, rfl, ?_⟩
  · simp [deliver_one_domain, hinner, TransferErrorsVariant.is_permanent]
  · intro cert allMxs rest
    simp [tryMxCandidates]

/-- C4 amended-claim witness: `x.org` has records `[(2, "."), (1, "m1")]`;
the send to the preferred host `m1` fails, the iteration reaches `"."`,
and the sole recipient is marked permanently `Failed` with
`HasNullMX "x.org"`. -/
theorem C4_null_mx_permanent_witness :
    deliver_one_domain (fun _ => Except.error "conn refused") "srv"
      (Option.some [[]]) 9 "x.org" (.ok [⟨2, "."⟩, ⟨1, "m1"⟩])
      [{ address := ⟨"w", "x.org"⟩, transfer_method := Transfer.deliver,
         email_status := .waiting }] =
    ([mxParameters "srv" "x.org" "m1" [[]]],
     [{ address := ⟨"w", "x.org"⟩, transfer_method := Transfer.deliver,
        email_status := .failed (.hasNullMX "x.org") }]) := by
  have h := (C4_null_mx_permanent (fun _ => Except.error "conn refused") "srv"
    [[]] 9 "x.org" [⟨2, "."⟩, ⟨1, "m1"⟩]
    [{ address := ⟨"w", "x.org"⟩, transfer_method := Transfer.deliver,
       email_status := .waiting }] ["m1"] []
    (by simp [sortByPreference, List.mergeSort, List.merge, MX.prefLE])
    (by
      intro mx hmx
      simp only [List.mem_singleton] at hmx
      subst hmx
      exact ⟨by decide, "conn refused", rfl⟩)).1
  simpa using h

/-- C5 counterexample: the MX lookup for `x.org` succeeds with an empty
record set, but no trust certificate is configured for the server name:
the orchestrator performs ZERO delivery attempts and returns the
`TlsNoCertificate` error instead of one direct-to-domain attempt. -/
theorem C5_counterexample :
    deliver_one_domain_inner (fun _ => Except.ok ()) "srv" Option.none "x.org"
      (.ok []) = ([], .error .tlsNoCertificate) ∧
    ((deliver_one_domain_inner (fun _ => Except.ok ()) "srv" Option.none "x.org"
      (.ok [])).1).length = 0 := by
  constructor <;>
    simp [deliver_one_domain_inner, get_mx_records, Except.map, sortByPreference]

/-- C5 (amended): when the MX lookup succeeds with an empty record set and
a trust certificate is configured for the server name, the orchestrator
performs exactly one direct delivery attempt to the queried domain —
used as both the relay target and the presented server name — and treats
the empty set neither as zero attempts nor as a resolution error (the one
attempt's failure is reported as a transient SMTP error); with no
certificate configured it performs zero attempts and returns the
`TlsNoCertificate` error. -/
theorem C5_empty_mx_direct_attempt (send : SenderParameters → Except String Unit)
    (hello_name : String) (c : List Certificate) (domain : String) :
    deliver_one_domain_inner send hello_name (Option.some c) domain (.ok []) =
      ([directParameters hello_name domain c],
        match send (directParameters hello_name domain c) with
        | .ok _ => .ok ()
        | .error e => .error (.smtp e)) ∧
    (directParameters hello_name domain c).relay_target = domain ∧
    (directParameters hello_name domain c).server_name = domain ∧
    deliver_one_domain_inner send hello_name Option.none domain (.ok []) =
      ([], .error .tlsNoCertificate) := by
  refine ⟨?_, rfl, rfl, ?_⟩
  · cases hs : send (directParameters hello_name domain c) <;>
      simp [deliver_one_domain_inner, get_mx_records, Except.map, sortByPreference, hs]
  · simp [deliver_one_domain_inner, get_mx_records, Except.map, sortByPreference]

end VSmtp

namespace VSmtp

/-- C6: for a non-empty MX record set containing no null-MX sentinel and a
configured certificate: the candidates are ordered ascending by
preference, ties keeping the resolver-returned order (stable sort on the
preference only), and the sorted list is a permutation of the resolver's
records; iteration is strictly sequential — when every candidate before
`mx0` fails and `mx0`'s send succeeds, exactly those candidates followed
by `mx0` are attempted, in order, and iteration stops with success,
probing nothing after `mx0`; and when every candidate's send fails the
group fails with `DeliveryError` enumerating every attempted host. -/
theorem C6_candidate_iteration (send : SenderParameters → Except String Unit)
    (hello_name : String) (c : List Certificate) (domain : String)
    (records : List MX)
    (hne : records ≠ [])
    (hnodot : ∀ r ∈ records, r.exchange ≠ ".") :
    ((sortByPreference records).Pairwise fun a b => a.preference ≤ b.preference) ∧
    (∀ p : Nat,
      (sortByPreference records).filter (fun r => decide (r.preference = p)) =
        records.filter (fun r => decide (r.preference = p))) ∧
    List.Perm (sortByPreference records) records ∧
    (∀ pre mx0 post,
      (sortByPreference records).map MX.exchange = pre ++ mx0 :: post →
      (∀ mx ∈ pre, ∃ s, send (mxParameters hello_name domain mx c) = .error s) →
      send (mxParameters hello_name domain mx0 c) = .ok () →
      deliver_one_domain_inner send hello_name (Option.some c) domain
          (.ok records) =
        ((pre ++ [mx0]).map fun mx => mxParameters hello_name domain mx c,
          .ok ())) ∧
    ((∀ mx ∈ (sortByPreference records).map MX.exchange,
        ∃ s, send (mxParameters hello_name domain mx c) = .error s) →
      deliver_one_domain_inner send hello_name (Option.some c) domain
          (.ok records) =
        (((sortByPreference records).map MX.exchange).map fun mx =>
            mxParameters hello_name domain mx c,
          .error (.deliveryError ((sortByPreference records).map MX.exchange)))) := by
  have hnodotS : ∀ mx ∈ (sortByPreference records).map MX.exchange, mx ≠ "." := by
    intro mx hmx
    obtain ⟨r, hr, hre⟩ := List.mem_map.mp hmx
    have hrmem : r ∈ records := (sortByPreference_perm records).mem_iff.mp hr
    rw [← hre]
    exact hnodot r hrmem
  have hneS : (sortByPreference records).isEmpty = false := by
    cases hs : sortByPreference records with
    | nil =>
      have hp := sortByPreference_perm records
      rw [hs] at hp
      exact absurd hp.symm.eq_nil hne
    | cons a l => simp
  have hunf : deliver_one_domain_inner send hello_name (Option.some c) domain
      (.ok records) =
      tryMxCandidates send hello_name domain (Option.some c)
        ((sortByPreference records).map MX.exchange)
        ((sortByPreference records).map MX.exchange) := by
    unfold deliver_one_domain_inner get_mx_records
    simp only [Except.map, hneS, Bool.false_eq_true, if_false]
  refine ⟨sortByPreference_sorted records, sortByPreference_stable records,
    sortByPreference_perm records, ?_, ?_⟩
  · intro pre mx0 post hsplit hpre hok
    rw [hunf, hsplit]
    apply tryMxCandidates_first_success
    · intro mx hmx
      refine ⟨?_, hpre mx hmx⟩
      apply hnodotS
      rw [hsplit]
      exact List.mem_append.mpr (Or.inl hmx)
    · apply hnodotS
      rw [hsplit]
      exact List.mem_append.mpr (Or.inr (List.mem_cons_self _ _))
    · exact hok
  · intro hall
    rw [hunf]
    apply tryMxCandidates_all_fail
    intro mx hmx
    exact ⟨hnodotS mx hmx, hall mx hmx⟩

/-- C6 witness: records `[(20, b), (10, a), (10, c)]` sort to
`[a, c, b]` (ties `a`, `c` keeping resolver order); the send fails for `a`
and succeeds for `c`, so exactly `a` then `c` are attempted and `b` is
never probed. -/
theorem C6_candidate_iteration_witness :
    deliver_one_domain_inner
      (fun p => if p.relay_target = "c" then Except.ok () else Except.error "x")
      "srv" (Option.some [[]]) "x.org"
      (.ok [⟨20, "b"⟩, ⟨10, "a"⟩, ⟨10, "c"⟩]) =
    ([mxParameters "srv" "x.org" "a" [[]], mxParameters "srv" "x.org" "c" [[]]],
      .ok ()) := by
  have h := (C6_candidate_iteration
    (fun p => if p.relay_target = "c" then Except.ok () else Except.error "x")
    "srv" [[]] "x.org" [⟨20, "b"⟩, ⟨10, "a"⟩, ⟨10, "c"⟩]
    (by decide) (by decide)).2.2.2.1 ["a"] "c" ["b"]
    (by simp [sortByPreference, List.mergeSort, List.merge, MX.prefLE])
    (by
      intro mx hmx
      simp only [List.mem_singleton] at hmx
      subst hmx
      exact ⟨"x", by simp [mxParameters]⟩)
    (by simp [mxParameters])
  simpa using h

end VSmtp

namespace VSmtp

/-- C7: a message whose recipients are all already `Sent` is dispatched to
no transport: `send_email`'s triage and `split_and_sort_and_send`'s
dispatch sets are both empty, recipient statuses are left untouched, and a
second run of the handler's delivery equals the first — the handler is
idempotent with respect to sends. -/
theorem C7_sent_excluded_idempotent (transport : Transfer → List Rcpt → List Rcpt)
    (attempt : Rcpt → EmailTransferStatus) (rcpt : List Rcpt)
    (h : ∀ r ∈ rcpt, r.email_status = EmailTransferStatus.sent) :
    send_email_dispatched rcpt = [] ∧
    send_email transport rcpt = [] ∧
    (split_and_sort_and_send attempt rcpt).1 = [] ∧
    (split_and_sort_and_send attempt rcpt).2.1 = rcpt ∧
    split_and_sort_and_send attempt ((split_and_sort_and_send attempt rcpt).2.1) =
      split_and_sort_and_send attempt rcpt := by
  have hfil : rcpt.filter (fun r => !r.isSent) = [] := by
    rw [List.filter_eq_nil_iff]
    intro r hr
    simp [Rcpt.isSent, h r hr]
  have htriage : filter_by_transfer_method rcpt = [] := by
    simp [filter_by_transfer_method, hfil]
  have hdis : (rcpt.filter fun r => !r.isSent && !r.isNoneTransfer) = [] := by
    rw [List.filter_eq_nil_iff]
    intro r hr
    simp [Rcpt.isSent, h r hr]
  have hupd : (rcpt.map fun r =>
      if !r.isSent && !r.isNoneTransfer then { r with email_status := attempt r }
      else r) = rcpt := by
    have hcong : ∀ r ∈ rcpt,
        (if !r.isSent && !r.isNoneTransfer
          then { r with email_status := attempt r } else r) = id r := by
      intro r hr
      simp [Rcpt.isSent, h r hr]
    rw [List.map_congr_left hcong, List.map_id]
  have h21 : (split_and_sort_and_send attempt rcpt).2.1 = rcpt := by
    simp only [split_and_sort_and_send]
    exact hupd
  refine ⟨?_, ?_, ?_, h21, ?_⟩
  · simp [send_email_dispatched, htriage]
  · simp [send_email, htriage]
  · simp only [split_and_sort_and_send]
    exact hdis
  · rw [h21]

/-- C7 witness: one already-`Sent` recipient — nothing is dispatched and a
second run changes nothing. -/
theorem C7_sent_excluded_idempotent_witness :
    send_email_dispatched
      [{ address := ⟨"u", "x.org"⟩, transfer_method := Transfer.deliver,
         email_status := EmailTransferStatus.sent }] = [] ∧
    send_email (fun _ g => g)
      [{ address := ⟨"u", "x.org"⟩, transfer_method := Transfer.deliver,
         email_status := EmailTransferStatus.sent }] = [] ∧
    (split_and_sort_and_send (fun _ => EmailTransferStatus.sent)
      [{ address := ⟨"u", "x.org"⟩, transfer_method := Transfer.deliver,
         email_status := EmailTransferStatus.sent }]).1 = [] ∧
    (split_and_sort_and_send (fun _ => EmailTransferStatus.sent)
      [{ address := ⟨"u", "x.org"⟩, transfer_method := Transfer.deliver,
         email_status := EmailTransferStatus.sent }]).2.1 =
      [{ address := ⟨"u", "x.org"⟩, transfer_method := Transfer.deliver,
         email_status := EmailTransferStatus.sent }] ∧
    split_and_sort_and_send (fun _ => EmailTransferStatus.sent)
      ((split_and_sort_and_send (fun _ => EmailTransferStatus.sent)
        [{ address := ⟨"u", "x.org"⟩, transfer_method := Transfer.deliver,
           email_status := EmailTransferStatus.sent }]).2.1) =
      split_and_sort_and_send (fun _ => EmailTransferStatus.sent)
        [{ address := ⟨"u", "x.org"⟩, transfer_method := Transfer.deliver,
           email_status := EmailTransferStatus.sent }] :=
  C7_sent_excluded_idempotent (fun _ g => g) (fun _ => EmailTransferStatus.sent) _
    (by decide)

end VSmtp

namespace VSmtp

/-- C8: two sequential `Sender::send` calls with structurally equal
parameters run the build path exactly once — the first call builds and
caches the pooled transport under the key, the second returns the same
cached handle with the state unchanged; a build failure is returned to the
caller with nothing cached, so the next call with the same key runs the
build path again. -/
theorem C8_pool_build_once (build_ok : SenderParameters → Bool)
    (st : SenderState) (params : SenderParameters)
    (habsent : st.get? params = Option.none) :
    (build_ok params = true →
      Sender.send build_ok st params =
        ({ senders := st.senders ++ [(params, st.next_handle)],
           next_handle := st.next_handle + 1,
           builds := st.builds + 1 }, .ok st.next_handle) ∧
      Sender.send build_ok (Sender.send build_ok st params).1 params =
        ((Sender.send build_ok st params).1, .ok st.next_handle)) ∧
    (build_ok params = false →
      Sender.send build_ok st params =
        ({ st with builds := st.builds + 1 }, .error ()) ∧
      (Sender.send build_ok st params).1.senders = st.senders ∧
      (Sender.send build_ok (Sender.send build_ok st params).1 params).1.builds =
        st.builds + 2) := by
  have hfind : st.senders.find? (fun kv => decide (kv.1 = params)) = Option.none := by
    cases hf : st.senders.find? (fun kv => decide (kv.1 = params)) with
    | none => rfl
    | some kv => simp [SenderState.get?, hf] at habsent
  constructor
  · intro hb
    have h1 : Sender.send build_ok st params =
        ({ senders := st.senders ++ [(params, st.next_handle)],
           next_handle := st.next_handle + 1,
           builds := st.builds + 1 }, .ok st.next_handle) := by
      simp [Sender.send, habsent, hb]
    refine ⟨h1, ?_⟩
    rw [h1]
    have hget : SenderState.get?
        { senders := st.senders ++ [(params, st.next_handle)],
          next_handle := st.next_handle + 1,
          builds := st.builds + 1 } params = Option.some st.next_handle := by
      simp [SenderState.get?, List.find?_append, hfind]
    simp [Sender.send, hget]
  · intro hb
    have h1 : Sender.send build_ok st params =
        ({ st with builds := st.builds + 1 }, .error ()) := by
      simp [Sender.send, habsent, hb]
    refine ⟨h1, by rw [h1], ?_⟩
    rw [h1]
    have hget2 : SenderState.get? { st with builds := st.builds + 1 } params =
        Option.none := by
      simp [SenderState.get?, hfind]
    simp [Sender.send, hget2, hb]

/-- C8 witness: from an empty pool, a successful build is cached — two
sends yield handle 0 with one build — while with a failing builder
nothing is cached and a second send runs the build path a second time. -/
theorem C8_pool_build_once_witness :
    Sender.send (fun _ => true)
      { senders := [], next_handle := 0, builds := 0 }
      (directParameters "srv" "x.org" [[1]]) =
      ({ senders := [(directParameters "srv" "x.org" [[1]], 0)],
         next_handle := 1, builds := 1 }, .ok 0) ∧
    Sender.send (fun _ => true)
      (Sender.send (fun _ => true)
        { senders := [], next_handle := 0, builds := 0 }
        (directParameters "srv" "x.org" [[1]])).1
      (directParameters "srv" "x.org" [[1]]) =
      ((Sender.send (fun _ => true)
        { senders := [], next_handle := 0, builds := 0 }
        (directParameters "srv" "x.org" [[1]])).1, .ok 0) ∧
    (Sender.send (fun _ => false)
      (Sender.send (fun _ => false)
        { senders := [], next_handle := 0, builds := 0 }
        (directParameters "srv" "x.org" [[1]])).1
      (directParameters "srv" "x.org" [[1]])).1.builds = 2 := by
  refine ⟨?_, ?_, ?_⟩
  · exact ((C8_pool_build_once (fun _ => true)
      { senders := [], next_handle := 0, builds := 0 }
      (directParameters "srv" "x.org" [[1]]) rfl).1 rfl).1
  · exact ((C8_pool_build_once (fun _ => true)
      { senders := [], next_handle := 0, builds := 0 }
      (directParameters "srv" "x.org" [[1]]) rfl).1 rfl).2
  · exact ((C8_pool_build_once (fun _ => false)
      { senders := [], next_handle := 0, builds := 0 }
      (directParameters "srv" "x.org" [[1]]) rfl).2 rfl).2.2

/-- C9: the `Deliver` transport's `deliver` returns exactly the input
recipients: the multiset of (address, transfer method) pairs is preserved
— no recipient dropped or duplicated, though the domain grouping may
reorder them — and each returned recipient matches an input recipient in
every field except possibly `email_status`. -/
theorem C9_deliver_preserves_recipients
    (send : SenderParameters → Except String Unit) (hello_name : String)
    (cert : Option (List Certificate)) (now : Int)
    (mx_lookup : String → Except String (List MX)) (recipients : List Rcpt) :
    List.Perm
      ((Deliver.deliver send hello_name cert now mx_lookup recipients).map
        Rcpt.frame)
      (recipients.map Rcpt.frame) ∧
    ∀ r ∈ Deliver.deliver send hello_name cert now mx_lookup recipients,
      ∃ r0 ∈ recipients,
        r.address = r0.address ∧ r.transfer_method = r0.transfer_method := by
  have heq : (Deliver.deliver send hello_name cert now mx_lookup recipients).map
      Rcpt.frame =
      (((rcpt_by_domain recipients).map Prod.snd).flatten).map Rcpt.frame := by
    unfold Deliver.deliver
    induction rcpt_by_domain recipients with
    | nil => simp
    | cons g gs ih =>
      simp only [List.map_cons, List.flatten_cons, List.map_append]
      rw [deliver_one_domain_frame, ih]
  have hperm : List.Perm
      ((Deliver.deliver send hello_name cert now mx_lookup recipients).map
        Rcpt.frame)
      (recipients.map Rcpt.frame) := by
    rw [heq]
    exact (rcpt_by_domain_flatten_perm recipients).map Rcpt.frame
  refine ⟨hperm, ?_⟩
  intro r hr
  have h1 : Rcpt.frame r ∈ recipients.map Rcpt.frame :=
    hperm.mem_iff.mp (List.mem_map_of_mem Rcpt.frame hr)
  obtain ⟨r0, hr0, hfr⟩ := List.mem_map.mp h1
  refine ⟨r0, hr0, ?_, ?_⟩
  · exact (congrArg Prod.fst hfr).symm
  · exact (congrArg Prod.snd hfr).symm

end VSmtp
